import Mathlib

/-
Shallow embedding of meta/plugins/bstrap.py (the ck-bootstrap plugin).

Modelling conventions:
- The filesystem portions the program touches are modelled explicitly: the
  sources cache namespace, the builds cache namespace, the built-marker files,
  the parsed recipe files, the patch working directories in the current
  directory, the written patch files, and the podman machine/container name
  registries.  Each namespace is an association list keyed by name.
- External collaborators (shell.exec, shell.wget, hashlib, tarfile, git diff,
  podman) are oracles carried in an Env record: the downloaded archive per
  url, the hex digest per algorithm and byte string, the success of each shell
  step, the success of each container exec attempt, the success of a container
  restart, the host kernel name, the git-diff output, and the interactive
  answer to the remove-workdir question.
- Every operation returns the new state, the ordered list of externally
  observable effects (the trace) and an optional error; a raised Python
  exception is the error becoming some.  Terminal progress formatting
  (printProgress/printDone) is not an effect claims depend on and is not
  recorded, except for the user-visible messages the commands print.
-/

namespace Bstrap

/-- A node of the modelled filesystem: a file with contents, or a directory
with named entries. -/
inductive Node where
  | file (data : String)
  | dir (entries : List (String × Node))

/-- Steps dataclass of bstrap.py: ordered build and package command lists. -/
structure Steps where
  build : List String
  package : List String

/-- RecipeSource dataclass: url, method, optional checksum string. -/
structure RecipeSource where
  url : String
  method : String
  checksum : Option String

/-- Recipe dataclass: id, source descriptor, step lists. -/
structure Recipe where
  id : String
  source : RecipeSource
  steps : Steps

/-- Image dataclass: image id plus its fixed setup command list. -/
structure Image where
  id : String
  setup : List String

/-- A downloaded tarball: its raw bytes (hashed by the verifier) and the
top-level entries the archive extracts to. -/
structure Archive where
  bytes : String
  entries : List (String × Node)

/-- Externally observable effects, in program order. -/
inductive Event where
  | warn (msg : String)
  | download (url : String)
  | hashCheck (algo expected actual : String)
  | extract (url : String)
  | move (entry dst : String)
  | rmrfTmp
  | cpTree (src dst : String)
  | execStep (cwd cmd : String)
  | writeMarker (id : String)
  | rmrfMarker (id : String)
  | printMsg (msg : String)
  | cexec (container cmd : String)
  | restart (container : String)
  | queryMachine (name : String)
  | machineStop
  | machineInit (name : String)
  | machineStart (name : String)
  | connectionDefault (name : String)
  | queryContainer (name : String)
  | containerRun (name image : String)
  | writePatch (recipe : String)
  | rmrfPath (path : String)
  deriving DecidableEq

/-- Raised Python exceptions: RuntimeError with its message, a ShellException
from a failed external command, an IndexError from list indexing, a KeyError
from a dict lookup. -/
inductive Err where
  | runtimeError (msg : String)
  | shellError (msg : String)
  | indexError
  | keyError (key : String)
  deriving DecidableEq

/-- The modelled machine state: the cache namespaces, the recipe directory
(already parsed into Recipe values; parsing is delegated to the external
declarative-file reader), the current-directory workdirs and patch files, and
the podman machine and container registries. -/
structure SysState where
  sources : List (String × Node)
  builds : List (String × Node)
  builtMarkers : List String
  recipes : List (String × Recipe)
  workdirs : List (String × Node)
  patches : List (String × String)
  machines : List String
  containers : List String

/-- Environment oracles for all external collaborators. -/
structure Env where
  download : String → Archive
  hashHex : String → String → String
  stepOk : String → Bool
  cexecOk : String → Nat → Bool
  restartOk : Bool
  unameSysname : String
  gitDiff : Option Node → Option Node → String
  askRemove : Bool

/-- Result of one operation: final state, effect trace, optional error. -/
structure Res where
  st : SysState
  tr : List Event
  err : Option Err

/-- Sequencing: run the continuation only when no exception is pending,
accumulating the trace. -/
def Res.andThen (r : Res) (f : SysState → Res) : Res :=
  match r.err with
  | some _ => r
  | none => ⟨(f r.st).st, r.tr ++ (f r.st).tr, (f r.st).err⟩

/-- Association-list lookup keyed by name. -/
def alookup {α : Type} (k : String) : List (String × α) → Option α
  | [] => none
  | (k0, v) :: rest => if k = k0 then some v else alookup k rest

/-- Association-list update or insert. -/
def aset {α : Type} (k : String) (v : α) : List (String × α) → List (String × α)
  | [] => [(k, v)]
  | (k0, v0) :: rest => if k = k0 then (k, v) :: rest else (k0, v0) :: aset k v rest

/-- Association-list removal (rm -rf of the named entry; tolerant of absence). -/
def aremove {α : Type} (k : String) : List (String × α) → List (String × α)
  | [] => []
  | (k0, v0) :: rest => if k = k0 then aremove k rest else (k0, v0) :: aremove k rest

/-- Python str.split(sep) over the characters of the string, with a single
character separator; "".split(sep) is [""] and separators at the ends produce
empty components, exactly as in Python. -/
def splitColonAux : List Char → List Char → List String
  | [], acc => [String.mk acc.reverse]
  | c :: cs, acc =>
    if c = ':' then String.mk acc.reverse :: splitColonAux cs []
    else splitColonAux cs (c :: acc)

/-- checksum.split(":") of bstrap.py line 179. -/
def splitColon (s : String) : List String :=
  splitColonAux s.data []

/-- Python str(bool). -/
def pyBool (b : Bool) : String := if b then "True" else "False"

/-- Fixed names built from containerNamePrefix = "CK__". -/
def defaultContainerName : String := "CK__default"

def defaultMachineName : String := "CK__machine"

def defaultImage : String := "debian"

/-- The IMAGES table: only the debian image, with its two setup commands. -/
def debianImage : Image :=
  ⟨"debian",
    ["apt-get update",
     "apt-get install -y python3 python3-pip python3-venv ninja-build build-essential git"]⟩

/-- IMAGES dict lookup (raising KeyError is modelled at the use site). -/
def IMAGES (key : String) : Option Image :=
  if key = "debian" then some debianImage else none

/-- machineExists: podman machine inspect by name, error means absent. -/
def machineExists (st : SysState) (name : String) : Bool :=
  decide (name ∈ st.machines)

/-- containerExists: podman container exists by name, error means absent. -/
def containerExists (st : SysState) (name : String) : Bool :=
  decide (name ∈ st.containers)

/-- wasRecipeBuilt: (cacheBuildsDir / recipe.built).exists(). -/
def wasRecipeBuilt (st : SysState) (recipe : String) : Bool :=
  decide (recipe ∈ st.builtMarkers)

/-- execInContainer: podman exec; on failure restart the container once and
retry the identical command once; a second failure (or a failed restart)
propagates as a fatal ShellException. -/
def execInContainer (env : Env) (name command : String) (st : SysState) : Res :=
  if env.cexecOk command 0 then
    ⟨st, [Event.cexec name command], none⟩
  else if env.restartOk then
    if env.cexecOk command 1 then
      ⟨st, [Event.cexec name command, Event.restart name, Event.cexec name command], none⟩
    else
      ⟨st, [Event.cexec name command, Event.restart name, Event.cexec name command],
        some (Err.shellError command)⟩
  else
    ⟨st, [Event.cexec name command, Event.restart name],
      some (Err.shellError "podman restart")⟩

/-- runCutekitCommandInContainer: re-enter the tool inside the container with
the explicit in-container flag appended. -/
def runCutekitCommandInContainer (env : Env) (container command : String)
    (st : SysState) : Res :=
  execInContainer env container
    ("cd /cutekit-bootstrap && ./meta/plugins/run.sh bootstrap " ++ command
      ++ " --in-container=true") st

/-- createContainer: podman run (detached, cwd bind-mounted, creates the named
container), then IMAGES[image] (KeyError if unknown), then every setup command
of the image through execInContainer, in order, aborting on failure. -/
def createContainer (env : Env) (name image : String) (st : SysState) : Res :=
  let st1 : SysState := { st with containers := st.containers ++ [name] }
  match IMAGES image with
  | none => ⟨st1, [Event.containerRun name image], some (Err.keyError image)⟩
  | some img =>
    List.foldl (fun r c => r.andThen (execInContainer env name c))
      ⟨st1, [Event.containerRun name image], none⟩ img.setup

/-- tryCreateContainer: create only when the existence query says absent. -/
def tryCreateContainer (env : Env) (name image : String) (st : SysState) : Res :=
  if containerExists st name then ⟨st, [Event.queryContainer name], none⟩
  else
    let r := createContainer env name image st
    ⟨r.st, Event.queryContainer name :: r.tr, r.err⟩

/-- tryCreateMachine: query by name; when absent, stop the running machine and
init (create and start) the named machine; when present, attempt a start and
tolerate its failure; either way re-point the default podman connection. -/
def tryCreateMachine (st : SysState) : Res :=
  if machineExists st defaultMachineName then
    ⟨st, [Event.queryMachine defaultMachineName, Event.machineStart defaultMachineName,
      Event.connectionDefault defaultMachineName], none⟩
  else
    ⟨{ st with machines := st.machines ++ [defaultMachineName] },
      [Event.queryMachine defaultMachineName, Event.machineStop,
        Event.machineInit defaultMachineName,
        Event.connectionDefault defaultMachineName], none⟩

/-- setupContainer: a machine is provisioned only when the host kernel is not
linux; the container is provisioned on every host. -/
def setupContainer (env : Env) (image : String) (st : SysState) : Res :=
  let r1 : Res := if env.unameSysname ≠ "linux" then tryCreateMachine st else ⟨st, [], none⟩
  r1.andThen (tryCreateContainer env defaultContainerName image)

/-- shutil.move of one extracted top-level entry into sources/dst: a rename
when the destination does not exist, a move inside when it is a directory. -/
def mvEntry (sources : List (String × Node)) (dst entryName : String) (n : Node) :
    List (String × Node) :=
  match alookup dst sources with
  | none => aset dst n sources
  | some (Node.dir es) => aset dst (Node.dir (es ++ [(entryName, n)])) sources
  | some (Node.file _) => aset dst n sources

/-- The mv loop of fetchRecipe lines 196-197 over the tmpdir entries. -/
def moveEntries (sources : List (String × Node)) (dst : String) :
    List (String × Node) → List (String × Node)
  | [] => sources
  | (entryName, n) :: rest => moveEntries (mvEntry sources dst entryName n) dst rest

/-- fetchRecipe lines 186-202: mkdir the sources namespace, extract into a
fresh temporary directory, move every top-level entry into sources/id, remove
the temporary directory, then recursively copy sources/id to sources/id-clean
(the copy fails when sources/id was never produced, e.g. an empty archive). -/
def fetchExtract (r : Recipe) (ar : Archive) (st : SysState) : Res :=
  let sources1 := moveEntries st.sources r.id ar.entries
  let tr := Event.extract r.source.url
      :: (ar.entries.map (fun e => Event.move e.1 r.id) ++ [Event.rmrfTmp])
  match alookup r.id sources1 with
  | none =>
    ⟨{ st with sources := sources1 },
      tr ++ [Event.cpTree r.id (r.id ++ "-clean")], some (Err.shellError "cpTree")⟩
  | some node =>
    ⟨{ st with sources := aset (r.id ++ "-clean") node sources1 },
      tr ++ [Event.cpTree r.id (r.id ++ "-clean")], none⟩

/-- fetchRecipe: return immediately when sources/id exists; warn when no
checksum is given; reject any method other than tarball; download; when a
checksum is present split it on ":" (indexing component 1 raises IndexError
when there is no separator) and compare component 1 against the hex digest of
the downloaded bytes computed with the algorithm named by component 0, raising
on mismatch before anything is extracted; then extract and snapshot. -/
def fetchRecipe (env : Env) (r : Recipe) (st : SysState) : Res :=
  match alookup r.id st.sources with
  | some _ => ⟨st, [], none⟩
  | none =>
    let warnTr : List Event :=
      match r.source.checksum with
      | none => [Event.warn (r.id ++
          " has no source checksum specified... data integrity will not be verified")]
      | some _ => []
    if r.source.method ≠ "tarball" then
      ⟨st, warnTr, some (Err.runtimeError ("Unknown source method " ++ r.source.method))⟩
    else
      let ar := env.download r.source.url
      let dlTr := warnTr ++ [Event.download r.source.url]
      match r.source.checksum with
      | some c =>
        match splitColon c with
        | algo :: expected :: _ =>
          let actual := env.hashHex algo ar.bytes
          if expected ≠ actual then
            ⟨st, dlTr ++ [Event.hashCheck algo expected actual],
              some (Err.runtimeError "Could not verify data integrity: invalid checksum")⟩
          else
            let r2 := fetchExtract r ar st
            ⟨r2.st, dlTr ++ [Event.hashCheck algo expected actual] ++ r2.tr, r2.err⟩
        | _ => ⟨st, dlTr, some Err.indexError⟩
      | none =>
        let r2 := fetchExtract r ar st
        ⟨r2.st, dlTr ++ r2.tr, r2.err⟩

/-- The step loop shared by buildRecipe and packageRecipe: run each command in
declared order in the build directory; the first non-zero exit raises and
aborts the remaining sequence. -/
def runSteps (env : Env) (cwd : String) : List String → List Event × Option Err
  | [] => ([], none)
  | s :: rest =>
    if env.stepOk s then
      let r := runSteps env cwd rest
      (Event.execStep cwd s :: r.1, r.2)
    else
      ([Event.execStep cwd s], some (Err.shellError s))

/-- buildRecipe: no-op when the built marker exists; otherwise copy the
pristine sources into the build directory, run the build steps in order, and
write the (empty) marker file only after every step succeeded. -/
def buildRecipe (env : Env) (r : Recipe) (quiet : Bool) (st : SysState) : Res :=
  if wasRecipeBuilt st r.id then ⟨st, [], none⟩
  else
    match alookup r.id st.sources with
    | none => ⟨st, [Event.cpTree r.id ("builds/" ++ r.id)], some (Err.shellError "cpTree")⟩
    | some node =>
      let st1 : SysState := { st with builds := aset r.id node st.builds }
      let run := runSteps env ("builds/" ++ r.id) r.steps.build
      match run.2 with
      | some e => ⟨st1, Event.cpTree r.id ("builds/" ++ r.id) :: run.1, some e⟩
      | none =>
        ⟨{ st1 with builtMarkers := st1.builtMarkers ++ [r.id] },
          Event.cpTree r.id ("builds/" ++ r.id) :: (run.1 ++ [Event.writeMarker r.id]),
          none⟩

/-- packageRecipe: copy the pristine sources into the build directory and run
the package steps in order; no marker is consulted and none is written. -/
def packageRecipe (env : Env) (r : Recipe) (st : SysState) : Res :=
  match alookup r.id st.sources with
  | none => ⟨st, [Event.cpTree r.id ("builds/" ++ r.id)], some (Err.shellError "cpTree")⟩
  | some node =>
    let st1 : SysState := { st with builds := aset r.id node st.builds }
    let run := runSteps env ("builds/" ++ r.id) r.steps.package
    ⟨st1, Event.cpTree r.id ("builds/" ++ r.id) :: run.1, run.2⟩

/-- doBuild: read and parse recipes/recipe.json when it exists, then fetch and
build; a missing recipe file is a fatal RuntimeError. -/
def doBuild (env : Env) (recipe : String) (quiet : Bool) (st : SysState) : Res :=
  match alookup recipe st.recipes with
  | some r => (fetchRecipe env r st).andThen (buildRecipe env r quiet)
  | none => ⟨st, [], some (Err.runtimeError ("No such recipe: " ++ recipe))⟩

/-- The bootstrap/build command: the built-marker short-circuit comes first,
before the in-container split and before the recipe file is ever consulted. -/
def cmdBuild (env : Env) (name : String) (inContainer quiet : Bool) (st : SysState) : Res :=
  if wasRecipeBuilt st name then ⟨st, [Event.printMsg "No work to do"], none⟩
  else if inContainer then doBuild env name quiet st
  else
    runCutekitCommandInContainer env defaultContainerName
      ("build --recipe=" ++ name ++ " --quiet=" ++ pyBool quiet) st

/-- The bootstrap/rebuild command: remove the marker when present, then run
the same fetch-and-build body as doBuild (or re-enter in the container). -/
def cmdRebuild (env : Env) (name : String) (inContainer quiet : Bool) (st : SysState) : Res :=
  let r0 : Res :=
    if wasRecipeBuilt st name then
      ⟨{ st with builtMarkers := st.builtMarkers.filter (fun x => x != name) },
        [Event.rmrfMarker name], none⟩
    else ⟨st, [], none⟩
  if inContainer then
    r0.andThen (fun st1 =>
      match alookup name st1.recipes with
      | some r => (fetchRecipe env r st1).andThen (buildRecipe env r quiet)
      | none => ⟨st1, [], some (Err.runtimeError ("No such recipe: " ++ name))⟩)
  else
    r0.andThen (runCutekitCommandInContainer env defaultContainerName
      ("build --recipe=" ++ name ++ " --quiet=" ++ pyBool quiet))

/-- The bootstrap/make-patch command: require the -clean snapshot, then copy
it to recipe-workdir in the current directory. -/
def cmdMakePatch (recipe : String) (st : SysState) : Res :=
  match alookup (recipe ++ "-clean") st.sources with
  | none => ⟨st, [], some (Err.runtimeError "Recipe sources were not fetched yet")⟩
  | some node =>
    ⟨{ st with workdirs := aset (recipe ++ "-workdir") node st.workdirs },
      [Event.cpTree (recipe ++ "-clean") (recipe ++ "-workdir"),
        Event.printMsg ("Created new directory " ++ recipe
          ++ "-workdir, make your changes and run save-patch")], none⟩

/-- The bootstrap/save-patch command: run git diff --no-index with check
disabled (so a failed diff never raises), write its stdout to recipe.patch,
then interactively offer to remove the workdir.  Nothing checks that the
workdir (or the clean snapshot) exists. -/
def cmdSavePatch (env : Env) (recipe : String) (st : SysState) : Res :=
  let diffOut := env.gitDiff (alookup (recipe ++ "-clean") st.sources)
    (alookup (recipe ++ "-workdir") st.workdirs)
  let st1 : SysState := { st with patches := aset recipe diffOut st.patches }
  let tr := [Event.writePatch recipe,
    Event.printMsg ("Save patch to " ++ recipe ++ ".patch")]
  if env.askRemove then
    ⟨{ st1 with workdirs := aremove (recipe ++ "-workdir") st1.workdirs },
      tr ++ [Event.rmrfPath (recipe ++ "-workdir")], none⟩
  else ⟨st1, tr, none⟩

/-- The shell step commands recorded in a trace, in order. -/
def stepsOf (tr : List Event) : List String :=
  tr.filterMap (fun e => match e with | Event.execStep _ c => some c | _ => none)

theorem alookup_aset_self {α : Type} (k : String) (v : α) (l : List (String × α)) :
    alookup k (aset k v l) = some v := by
  induction l with
  | nil => simp [aset, alookup]
  | cons x rest ih =>
    by_cases h : k = x.1
    · simp [aset, alookup, h]
    · simp [aset, alookup, h, ih]

theorem alookup_aset_ne {α : Type} (k k0 : String) (h : k ≠ k0) (v : α)
    (l : List (String × α)) : alookup k (aset k0 v l) = alookup k l := by
  induction l with
  | nil => simp [aset, alookup, h]
  | cons x rest ih =>
    by_cases h0 : k0 = x.1
    · subst h0
      simp [aset, alookup, h, ih]
    · by_cases h1 : k = x.1 <;> simp [aset, alookup, h0, h1, ih]

theorem ne_append_clean (s : String) : s ≠ s ++ "-clean" := by
  intro h
  have hlen := congrArg String.length h
  rw [String.length_append] at hlen
  have hsix : ("-clean" : String).length = 6 := rfl
  omega

theorem alookup_mvEntry_self (sources : List (String × Node)) (dst entryName : String)
    (n : Node) : (alookup dst (mvEntry sources dst entryName n)).isSome := by
  unfold mvEntry
  cases h : alookup dst sources with
  | none => simp [alookup_aset_self]
  | some node => cases node <;> simp [alookup_aset_self]

theorem alookup_moveEntries_isSome (l : List (String × Node))
    (sources : List (String × Node)) (dst : String)
    (h : (alookup dst sources).isSome) :
    (alookup dst (moveEntries sources dst l)).isSome := by
  induction l generalizing sources with
  | nil => simpa [moveEntries] using h
  | cons x rest ih => exact ih (mvEntry sources dst x.1 x.2) (alookup_mvEntry_self ..)

theorem alookup_moveEntries_of_ne_nil (l : List (String × Node)) (hne : l ≠ [])
    (sources : List (String × Node)) (dst : String) :
    (alookup dst (moveEntries sources dst l)).isSome := by
  cases l with
  | nil => exact absurd rfl hne
  | cons x rest =>
    exact alookup_moveEntries_isSome rest (mvEntry sources dst x.1 x.2) dst
      (alookup_mvEntry_self ..)

theorem runSteps_err_iff (env : Env) (cwd : String) (l : List String) :
    (runSteps env cwd l).2 = none ↔ l.all env.stepOk = true := by
  induction l with
  | nil => simp [runSteps]
  | cons s rest ih => by_cases h : env.stepOk s <;> simp [runSteps, h, ih]

theorem stepsOf_runSteps (env : Env) (cwd : String) (l : List String) :
    stepsOf (runSteps env cwd l).1
      = l.takeWhile env.stepOk ++ (l.dropWhile env.stepOk).take 1 := by
  induction l with
  | nil => simp [runSteps, stepsOf]
  | cons s rest ih =>
    by_cases h : env.stepOk s
    · simpa [runSteps, h, stepsOf, List.filterMap_cons, List.takeWhile_cons,
        List.dropWhile_cons] using ih
    · simp [runSteps, h, stepsOf, List.filterMap_cons, List.takeWhile_cons,
        List.dropWhile_cons]

theorem mem_stepsOf_runSteps (env : Env) (cwd : String) (l : List String) (s : String)
    (h : s ∈ stepsOf (runSteps env cwd l).1) : s ∈ l := by
  rw [stepsOf_runSteps] at h
  rcases List.mem_append.mp h with h1 | h1
  · exact List.takeWhile_sublist _ |>.subset h1
  · exact (List.dropWhile_sublist _ |>.subset) (List.take_subset _ _ h1)

theorem stepsOf_append (a b : List Event) : stepsOf (a ++ b) = stepsOf a ++ stepsOf b := by
  simp [stepsOf, List.filterMap_append]

theorem stepsOf_map_move (l : List (String × Node)) (d : String) :
    stepsOf (l.map (fun e => Event.move e.1 d)) = [] := by
  induction l with
  | nil => simp [stepsOf]
  | cons x xs ih => simpa [stepsOf, List.filterMap_cons] using ih

theorem stepsOf_fetchExtract (r : Recipe) (ar : Archive) (st : SysState) :
    stepsOf (fetchExtract r ar st).tr = [] := by
  unfold fetchExtract
  cases h : alookup r.id (moveEntries st.sources r.id ar.entries) <;>
    simp [h, stepsOf_append, stepsOf_map_move, stepsOf, List.filterMap_cons,
      List.filterMap_append]

theorem stepsOf_fetchRecipe (env : Env) (r : Recipe) (st : SysState) :
    stepsOf (fetchRecipe env r st).tr = [] := by
  unfold fetchRecipe
  cases hs : alookup r.id st.sources with
  | some v => simp [stepsOf]
  | none =>
    by_cases hm : r.source.method ≠ "tarball"
    · cases hcs : r.source.checksum <;>
        simp [hm, hcs, stepsOf, List.filterMap_cons]
    · cases hcs : r.source.checksum with
      | none =>
        have := stepsOf_fetchExtract r (env.download r.source.url) st
        simp [hm, hcs, stepsOf_append, stepsOf, List.filterMap_cons,
          List.filterMap_append] at this ⊢
        simpa [stepsOf] using this
      | some c =>
        cases hsp : splitColon c with
        | nil => simp [hm, hcs, hsp, stepsOf, List.filterMap_cons]
        | cons algo rest =>
          cases rest with
          | nil => simp [hm, hcs, hsp, stepsOf, List.filterMap_cons]
          | cons expected rest2 =>
            by_cases heq :
                expected ≠ env.hashHex algo (env.download r.source.url).bytes
            · simp [hm, hcs, hsp, heq, stepsOf, List.filterMap_cons,
                List.filterMap_append]
            · have := stepsOf_fetchExtract r (env.download r.source.url) st
              simp [hm, hcs, hsp, heq, stepsOf_append, stepsOf, List.filterMap_cons,
                List.filterMap_append] at this ⊢
              simpa [stepsOf] using this

/-- fetchRecipe is a no-op exactly on the presence of sources/id. -/
theorem fetchRecipe_noop (env : Env) (r : Recipe) (st : SysState)
    (h : (alookup r.id st.sources).isSome) : fetchRecipe env r st = ⟨st, [], none⟩ := by
  unfold fetchRecipe
  cases hs : alookup r.id st.sources with
  | some v => simp
  | none => rw [hs] at h; simp at h

/-- The success branch of fetchExtract, explicitly. -/
theorem fetchExtract_ok (r : Recipe) (ar : Archive) (st : SysState) (node : Node)
    (h : alookup r.id (moveEntries st.sources r.id ar.entries) = some node) :
    fetchExtract r ar st =
      ⟨{ st with
          sources := aset (r.id ++ "-clean") node (moveEntries st.sources r.id ar.entries) },
        Event.extract r.source.url
          :: (ar.entries.map (fun e => Event.move e.1 r.id) ++ [Event.rmrfTmp])
          ++ [Event.cpTree r.id (r.id ++ "-clean")], none⟩ := by
  simp only [fetchExtract]
  rw [h]

/-- The failure branch of fetchExtract, explicitly. -/
theorem fetchExtract_none (r : Recipe) (ar : Archive) (st : SysState)
    (h : alookup r.id (moveEntries st.sources r.id ar.entries) = none) :
    fetchExtract r ar st =
      ⟨{ st with sources := moveEntries st.sources r.id ar.entries },
        Event.extract r.source.url
          :: (ar.entries.map (fun e => Event.move e.1 r.id) ++ [Event.rmrfTmp])
          ++ [Event.cpTree r.id (r.id ++ "-clean")], some (Err.shellError "cpTree")⟩ := by
  simp only [fetchExtract]
  rw [h]

/-- A successful fetch leaves sources/id present. -/
theorem fetchExtract_ok_isSome (r : Recipe) (ar : Archive) (st : SysState)
    (h : (fetchExtract r ar st).err = none) :
    (alookup r.id (fetchExtract r ar st).st.sources).isSome := by
  cases hs : alookup r.id (moveEntries st.sources r.id ar.entries) with
  | none => rw [fetchExtract_none r ar st hs] at h; simp at h
  | some node =>
    rw [fetchExtract_ok r ar st node hs]
    simp [alookup_aset_ne r.id (r.id ++ "-clean") (ne_append_clean r.id), hs]

/-- The no-checksum branch of fetchRecipe, explicitly. -/
theorem fetchRecipe_no_checksum (env : Env) (r : Recipe) (st : SysState)
    (hnot : alookup r.id st.sources = none)
    (hm : r.source.method = "tarball")
    (hcs : r.source.checksum = none) :
    fetchRecipe env r st =
      ⟨(fetchExtract r (env.download r.source.url) st).st,
        Event.warn (r.id ++
            " has no source checksum specified... data integrity will not be verified")
          :: Event.download r.source.url
          :: (fetchExtract r (env.download r.source.url) st).tr,
        (fetchExtract r (env.download r.source.url) st).err⟩ := by
  simp [fetchRecipe, hnot, hcs, hm]

/-- The checksum-mismatch branch of fetchRecipe, explicitly. -/
theorem fetchRecipe_verify_fail (env : Env) (r : Recipe) (st : SysState)
    (c algo expected : String) (rest : List String)
    (hnot : alookup r.id st.sources = none)
    (hm : r.source.method = "tarball")
    (hcs : r.source.checksum = some c)
    (hsp : splitColon c = algo :: expected :: rest)
    (hne : expected ≠ env.hashHex algo (env.download r.source.url).bytes) :
    fetchRecipe env r st =
      ⟨st, [Event.download r.source.url,
          Event.hashCheck algo expected (env.hashHex algo (env.download r.source.url).bytes)],
        some (Err.runtimeError "Could not verify data integrity: invalid checksum")⟩ := by
  simp [fetchRecipe, hnot, hcs, hm, hsp, hne]

/-- The checksum-match branch of fetchRecipe, explicitly. -/
theorem fetchRecipe_verify_ok (env : Env) (r : Recipe) (st : SysState)
    (c algo expected : String) (rest : List String)
    (hnot : alookup r.id st.sources = none)
    (hm : r.source.method = "tarball")
    (hcs : r.source.checksum = some c)
    (hsp : splitColon c = algo :: expected :: rest)
    (heq : expected = env.hashHex algo (env.download r.source.url).bytes) :
    fetchRecipe env r st =
      ⟨(fetchExtract r (env.download r.source.url) st).st,
        Event.download r.source.url
          :: Event.hashCheck algo expected (env.hashHex algo (env.download r.source.url).bytes)
          :: (fetchExtract r (env.download r.source.url) st).tr,
        (fetchExtract r (env.download r.source.url) st).err⟩ := by
  simp [fetchRecipe, hnot, hcs, hm, hsp, heq]

/-- The malformed-checksum branch (no ":" separator): IndexError. -/
theorem fetchRecipe_no_colon (env : Env) (r : Recipe) (st : SysState) (c : String)
    (hnot : alookup r.id st.sources = none)
    (hm : r.source.method = "tarball")
    (hcs : r.source.checksum = some c)
    (hsp : (splitColon c).length ≤ 1) :
    fetchRecipe env r st = ⟨st, [Event.download r.source.url], some Err.indexError⟩ := by
  cases hl : splitColon c with
  | nil => simp [fetchRecipe, hnot, hcs, hm, hl]
  | cons a rest =>
    cases rest with
    | nil => simp [fetchRecipe, hnot, hcs, hm, hl]
    | cons b r2 => rw [hl] at hsp; simp at hsp

/-- The unsupported-method branch: RuntimeError. -/
theorem fetchRecipe_bad_method_err (env : Env) (r : Recipe) (st : SysState)
    (hnot : alookup r.id st.sources = none)
    (hm : r.source.method ≠ "tarball") :
    (fetchRecipe env r st).err
      = some (Err.runtimeError ("Unknown source method " ++ r.source.method)) := by
  cases hcs : r.source.checksum <;> simp [fetchRecipe, hnot, hcs, hm]

theorem fetchRecipe_ok_isSome (env : Env) (r : Recipe) (st : SysState)
    (h : (fetchRecipe env r st).err = none) :
    (alookup r.id (fetchRecipe env r st).st.sources).isSome := by
  cases hs : alookup r.id st.sources with
  | some v => rw [fetchRecipe_noop env r st (by simp [hs])]; simp [hs]
  | none =>
    by_cases hm : r.source.method = "tarball"
    · cases hcs : r.source.checksum with
      | none =>
        rw [fetchRecipe_no_checksum env r st hs hm hcs] at h ⊢
        exact fetchExtract_ok_isSome _ _ _ h
      | some c =>
        cases hl : splitColon c with
        | nil =>
          rw [fetchRecipe_no_colon env r st c hs hm hcs (by simp [hl])] at h
          simp at h
        | cons a rest =>
          cases rest with
          | nil =>
            rw [fetchRecipe_no_colon env r st c hs hm hcs (by simp [hl])] at h
            simp at h
          | cons b r2 =>
            by_cases heq : b = env.hashHex a (env.download r.source.url).bytes
            · rw [fetchRecipe_verify_ok env r st c a b r2 hs hm hcs hl heq] at h ⊢
              exact fetchExtract_ok_isSome _ _ _ h
            · rw [fetchRecipe_verify_fail env r st c a b r2 hs hm hcs hl heq] at h
              simp at h
    · rw [fetchRecipe_bad_method_err env r st hs hm] at h
      simp at h

theorem stepsOf_cons_cpTree (a b : String) (tr : List Event) :
    stepsOf (Event.cpTree a b :: tr) = stepsOf tr := by
  simp [stepsOf, List.filterMap_cons]

theorem stepsOf_writeMarker (i : String) : stepsOf [Event.writeMarker i] = [] := by
  simp [stepsOf]

/-- The failing branch of buildRecipe, explicitly. -/
theorem buildRecipe_fail (env : Env) (r : Recipe) (quiet : Bool) (st : SysState)
    (node : Node) (e : Err)
    (h : wasRecipeBuilt st r.id = false)
    (hsrc : alookup r.id st.sources = some node)
    (hrun : (runSteps env ("builds/" ++ r.id) r.steps.build).2 = some e) :
    buildRecipe env r quiet st =
      ⟨{ st with builds := aset r.id node st.builds },
        Event.cpTree r.id ("builds/" ++ r.id)
          :: (runSteps env ("builds/" ++ r.id) r.steps.build).1, some e⟩ := by
  simp [buildRecipe, h, hsrc, hrun]

/-- The fully successful branch of buildRecipe, explicitly. -/
theorem buildRecipe_ok (env : Env) (r : Recipe) (quiet : Bool) (st : SysState)
    (node : Node)
    (h : wasRecipeBuilt st r.id = false)
    (hsrc : alookup r.id st.sources = some node)
    (hrun : (runSteps env ("builds/" ++ r.id) r.steps.build).2 = none) :
    buildRecipe env r quiet st =
      ⟨{ st with builds := aset r.id node st.builds, builtMarkers := st.builtMarkers ++ [r.id] },
        Event.cpTree r.id ("builds/" ++ r.id)
          :: ((runSteps env ("builds/" ++ r.id) r.steps.build).1
            ++ [Event.writeMarker r.id]), none⟩ := by
  simp [buildRecipe, h, hsrc, hrun]

/-- Every shell step a buildRecipe call executes is one of the declared build
steps. -/
theorem mem_stepsOf_buildRecipe (env : Env) (r : Recipe) (q : Bool) (st : SysState)
    (s : String) (hs : s ∈ stepsOf (buildRecipe env r q st).tr) : s ∈ r.steps.build := by
  cases h : wasRecipeBuilt st r.id with
  | true => simp [buildRecipe, h, stepsOf] at hs
  | false =>
    cases hsrc : alookup r.id st.sources with
    | none => simp [buildRecipe, h, hsrc, stepsOf, List.filterMap_cons] at hs
    | some node =>
      cases hrun : (runSteps env ("builds/" ++ r.id) r.steps.build).2 with
      | some e =>
        rw [buildRecipe_fail env r q st node e h hsrc hrun] at hs
        rw [show (⟨{ st with builds := aset r.id node st.builds },
            Event.cpTree r.id ("builds/" ++ r.id)
              :: (runSteps env ("builds/" ++ r.id) r.steps.build).1, some e⟩ : Res).tr
          = Event.cpTree r.id ("builds/" ++ r.id)
              :: (runSteps env ("builds/" ++ r.id) r.steps.build).1 from rfl,
          stepsOf_cons_cpTree] at hs
        exact mem_stepsOf_runSteps env ("builds/" ++ r.id) r.steps.build s hs
      | none =>
        rw [buildRecipe_ok env r q st node h hsrc hrun] at hs
        rw [show (⟨{ st with builds := aset r.id node st.builds, builtMarkers := st.builtMarkers ++ [r.id] },
            Event.cpTree r.id ("builds/" ++ r.id)
              :: ((runSteps env ("builds/" ++ r.id) r.steps.build).1
                ++ [Event.writeMarker r.id]), none⟩ : Res).tr
          = Event.cpTree r.id ("builds/" ++ r.id)
              :: ((runSteps env ("builds/" ++ r.id) r.steps.build).1
                ++ [Event.writeMarker r.id]) from rfl,
          stepsOf_cons_cpTree, stepsOf_append, stepsOf_writeMarker,
          List.append_nil] at hs
        exact mem_stepsOf_runSteps env ("builds/" ++ r.id) r.steps.build s hs

/-- Claim C3: the build stage is a no-op when the builds/id.built marker
exists; when it runs, success of the whole declared step sequence is
equivalent to a clean exit, the marker is written exactly on full success,
and the executed steps are the declared prefix up to and including the first
failing step (aborting the rest). -/
theorem claim_C3 (env : Env) (r : Recipe) (quiet : Bool) (st : SysState) :
    (wasRecipeBuilt st r.id = true → buildRecipe env r quiet st = ⟨st, [], none⟩) ∧
    (wasRecipeBuilt st r.id = false → ∀ node, alookup r.id st.sources = some node →
      (((buildRecipe env r quiet st).err = none) ↔ r.steps.build.all env.stepOk = true) ∧
      ((wasRecipeBuilt (buildRecipe env r quiet st).st r.id = true) ↔
        (buildRecipe env r quiet st).err = none) ∧
      stepsOf (buildRecipe env r quiet st).tr
        = r.steps.build.takeWhile env.stepOk
          ++ (r.steps.build.dropWhile env.stepOk).take 1) := by
  constructor
  · intro h; simp [buildRecipe, h]
  · intro h node hsrc
    have hiff := runSteps_err_iff env ("builds/" ++ r.id) r.steps.build
    have hsteps := stepsOf_runSteps env ("builds/" ++ r.id) r.steps.build
    cases hrun : (runSteps env ("builds/" ++ r.id) r.steps.build).2 with
    | some e =>
      rw [buildRecipe_fail env r quiet st node e h hsrc hrun]
      rw [hrun] at hiff
      refine ⟨by simpa using hiff.symm, ?_, ?_⟩
      · simpa [wasRecipeBuilt] using (by simpa [wasRecipeBuilt] using h)
      · rw [show (⟨{ st with builds := aset r.id node st.builds },
            Event.cpTree r.id ("builds/" ++ r.id)
              :: (runSteps env ("builds/" ++ r.id) r.steps.build).1, some e⟩ : Res).tr
          = Event.cpTree r.id ("builds/" ++ r.id)
              :: (runSteps env ("builds/" ++ r.id) r.steps.build).1 from rfl,
          stepsOf_cons_cpTree]
        exact hsteps
    | none =>
      rw [buildRecipe_ok env r quiet st node h hsrc hrun]
      rw [hrun] at hiff
      refine ⟨by simpa using hiff.symm, ?_, ?_⟩
      · simp [wasRecipeBuilt]
      · rw [show (⟨{ st with builds := aset r.id node st.builds, builtMarkers := st.builtMarkers ++ [r.id] },
            Event.cpTree r.id ("builds/" ++ r.id)
              :: ((runSteps env ("builds/" ++ r.id) r.steps.build).1
                ++ [Event.writeMarker r.id]), none⟩ : Res).tr
          = Event.cpTree r.id ("builds/" ++ r.id)
              :: ((runSteps env ("builds/" ++ r.id) r.steps.build).1
                ++ [Event.writeMarker r.id]) from rfl,
          stepsOf_cons_cpTree, stepsOf_append, stepsOf_writeMarker, List.append_nil]
        exact hsteps

theorem stepsOf_andThen (a : Res) (f : SysState → Res) :
    stepsOf (a.andThen f).tr = stepsOf a.tr ++ stepsOf (f a.st).tr ∨
      stepsOf (a.andThen f).tr = stepsOf a.tr := by
  cases h : a.err with
  | some e => right; simp [Res.andThen, h]
  | none => left; simp [Res.andThen, h, stepsOf_append]

/-- A concrete tree used by witnesses. -/
def nodeHello : Node := Node.dir [("main.c", Node.file "int main")]

/-- A concrete environment in which every external command succeeds, the
archive holds one top-level directory, and every digest is "aa". -/
def envC : Env :=
  ⟨fun _ => ⟨"tarballbytes", [("hello-2.1", nodeHello)]⟩, fun _ _ => "aa",
    fun _ => true, fun _ _ => true, true, "linux", fun _ _ => "", true⟩

/-- A concrete environment in which every first container exec attempt fails
and every retry succeeds. -/
def envRetry : Env :=
  ⟨fun _ => ⟨"", []⟩, fun _ _ => "", fun _ => true, fun _ n => decide (n = 1),
    true, "linux", fun _ _ => "", true⟩

def helloRecipe : Recipe :=
  ⟨"hello", ⟨"https://example.org/hello.tar.gz", "tarball", none⟩,
    ⟨["make"], ["make install"]⟩⟩

/-- Fresh state: one recipe file, empty caches. -/
def stC : SysState := ⟨[], [], [], [("hello", helloRecipe)], [], [], [], []⟩

/-- State after a fetch: sources and clean snapshot present, no marker. -/
def stSrc : SysState :=
  ⟨[("hello", nodeHello), ("hello-clean", nodeHello)], [], [],
    [("hello", helloRecipe)], [], [], [], []⟩

/-- State with a stale built marker and no recipe file. -/
def stBuilt : SysState := ⟨[], [], ["hello"], [], [], [], [], []⟩

/-- State with sources, marker and recipe file all present. -/
def stFull : SysState :=
  ⟨[("hello", nodeHello), ("hello-clean", nodeHello)], [], ["hello"],
    [("hello", helloRecipe)], [], [], [], []⟩

/-- Claim C1 is false on the code: a fully successful build invocation
(doBuild, the body of the build and build-all commands) never runs the
package step sequence, because packageRecipe is never called; here the build
of recipe hello succeeds yet its only package step was never executed. -/
theorem claim_C1_counterexample :
    (doBuild envC "hello" false stC).err = none ∧
    "make install" ∈ helloRecipe.steps.package ∧
    "make install" ∉ stepsOf (doBuild envC "hello" false stC).tr := by
  decide

/-- Claim C1 (amended): a build-family invocation drives the recipe through
fetch, integrity-verify, extract and build only; no package step is ever
executed by doBuild (packageRecipe has no caller).  packageRecipe itself,
when invoked directly, runs the package step sequence unconditionally: it is
not gated by the built marker. -/
theorem claim_C1_amended (env : Env) (name : String) (quiet : Bool) (st : SysState)
    (r : Recipe) (hr : alookup name st.recipes = some r)
    (hdisj : ∀ s ∈ r.steps.package, s ∉ r.steps.build) :
    (∀ s ∈ r.steps.package, s ∉ stepsOf (doBuild env name quiet st).tr) ∧
    (wasRecipeBuilt st r.id = true → ∀ node, alookup r.id st.sources = some node →
      stepsOf (packageRecipe env r st).tr
        = r.steps.package.takeWhile env.stepOk
          ++ (r.steps.package.dropWhile env.stepOk).take 1) := by
  constructor
  · intro s hsp hmem
    simp only [doBuild, hr] at hmem
    rcases stepsOf_andThen (fetchRecipe env r st) (buildRecipe env r quiet) with hca | hca
    · rw [hca, stepsOf_fetchRecipe] at hmem
      simp only [List.nil_append] at hmem
      exact hdisj s hsp (mem_stepsOf_buildRecipe env r quiet _ s hmem)
    · rw [hca, stepsOf_fetchRecipe] at hmem
      simp at hmem
  · intro hmark node hsrc
    simp only [packageRecipe, hsrc]
    rw [stepsOf_cons_cpTree]
    exact stepsOf_runSteps env ("builds/" ++ r.id) r.steps.package

theorem claim_C1_amended_witness :
    "make install" ∉ stepsOf (doBuild envC "hello" false stFull).tr ∧
    stepsOf (packageRecipe envC helloRecipe stFull).tr
      = helloRecipe.steps.package.takeWhile envC.stepOk
        ++ (helloRecipe.steps.package.dropWhile envC.stepOk).take 1 :=
  ⟨(claim_C1_amended envC "hello" false stFull helloRecipe (by rfl) (by decide)).1
      "make install" (by decide),
    (claim_C1_amended envC "hello" false stFull helloRecipe (by rfl) (by decide)).2
      (by decide) nodeHello (by rfl)⟩

theorem claim_C3_witness :
    (((buildRecipe envC helloRecipe true stSrc).err = none) ↔
      helloRecipe.steps.build.all envC.stepOk = true) ∧
    ((wasRecipeBuilt (buildRecipe envC helloRecipe true stSrc).st helloRecipe.id = true) ↔
      (buildRecipe envC helloRecipe true stSrc).err = none) ∧
    stepsOf (buildRecipe envC helloRecipe true stSrc).tr
      = helloRecipe.steps.build.takeWhile envC.stepOk
        ++ (helloRecipe.steps.build.dropWhile envC.stepOk).take 1 :=
  (claim_C3 envC helloRecipe true stSrc).2 (by decide) nodeHello (by rfl)

/-- Claim C4: a first exec failure inside the container is followed by exactly
one restart and exactly one retry of the identical command (provided the
restart command itself succeeds); the retry outcome decides success, a second
failure propagates as fatal, and no further restart or exec is issued. -/
theorem claim_C4 (env : Env) (name command : String) (st : SysState) :
    (env.cexecOk command 0 = true →
      execInContainer env name command st = ⟨st, [Event.cexec name command], none⟩) ∧
    (env.cexecOk command 0 = false → env.restartOk = true →
      (execInContainer env name command st).tr
          = [Event.cexec name command, Event.restart name, Event.cexec name command] ∧
        (execInContainer env name command st).st = st ∧
        (env.cexecOk command 1 = true → (execInContainer env name command st).err = none) ∧
        (env.cexecOk command 1 = false →
          (execInContainer env name command st).err = some (Err.shellError command))) := by
  constructor
  · intro h; simp [execInContainer, h]
  · intro h0 hr
    by_cases h1 : env.cexecOk command 1 = true
    · simp [execInContainer, h0, hr, h1]
    · simp only [Bool.not_eq_true] at h1
      simp [execInContainer, h0, hr, h1]

theorem claim_C4_witness :
    (execInContainer envRetry "CK__default" "make" stC).tr
        = [Event.cexec "CK__default" "make", Event.restart "CK__default",
          Event.cexec "CK__default" "make"] ∧
      (execInContainer envRetry "CK__default" "make" stC).err = none :=
  ⟨((claim_C4 envRetry "CK__default" "make" stC).2 (by decide) (by decide)).1,
    (((claim_C4 envRetry "CK__default" "make" stC).2 (by decide) (by decide)).2.2.1
      (by decide))⟩

/-- Claim C5: fetch is idempotent; the presence of sources/id is the sole
already-fetched signal: when it is present fetch returns immediately with no
download, no extraction and an unchanged state, and after any successful
fetch a second fetch is exactly such a no-op. -/
theorem claim_C5 (env : Env) (r : Recipe) (st : SysState) :
    (∀ node, alookup r.id st.sources = some node →
      fetchRecipe env r st = ⟨st, [], none⟩) ∧
    ((fetchRecipe env r st).err = none →
      fetchRecipe env r (fetchRecipe env r st).st
        = ⟨(fetchRecipe env r st).st, [], none⟩) := by
  constructor
  · intro node h; exact fetchRecipe_noop env r st (by simp [h])
  · intro h; exact fetchRecipe_noop env r _ (fetchRecipe_ok_isSome env r st h)

theorem claim_C5_witness :
    fetchRecipe envC helloRecipe stSrc = ⟨stSrc, [], none⟩ ∧
    fetchRecipe envC helloRecipe (fetchRecipe envC helloRecipe stC).st
      = ⟨(fetchRecipe envC helloRecipe stC).st, [], none⟩ :=
  ⟨(claim_C5 envC helloRecipe stSrc).1 nodeHello (by rfl),
    (claim_C5 envC helloRecipe stC).2 (by rfl)⟩

/-- Claim C10: the build command checks the built marker before it ever looks
for the recipe file, so with a stale marker it reports no work to do and
succeeds even though recipes/name.json is absent; without the marker the same
state is a fatal missing-recipe error. -/
theorem claim_C10 (env : Env) (name : String) (inContainer quiet : Bool)
    (st : SysState)
    (hmark : wasRecipeBuilt st name = true)
    (hrec : alookup name st.recipes = none) :
    cmdBuild env name inContainer quiet st
        = ⟨st, [Event.printMsg "No work to do"], none⟩ ∧
    (∀ st2 : SysState, wasRecipeBuilt st2 name = false →
      alookup name st2.recipes = none →
      (cmdBuild env name true quiet st2).err
        = some (Err.runtimeError ("No such recipe: " ++ name))) := by
  constructor
  · simp [cmdBuild, hmark]
  · intro st2 h2 hr2
    simp [cmdBuild, h2, doBuild, hr2]

/-- Completely empty state. -/
def stEmpty : SysState := ⟨[], [], [], [], [], [], [], []⟩

theorem claim_C10_witness :
    cmdBuild envC "hello" true false stBuilt
        = ⟨stBuilt, [Event.printMsg "No work to do"], none⟩ ∧
    (cmdBuild envC "hello" true false stEmpty).err
      = some (Err.runtimeError ("No such recipe: " ++ "hello")) :=
  ⟨(claim_C10 envC "hello" true false stBuilt (by decide) (by rfl)).1,
    (claim_C10 envC "hello" true false stBuilt (by decide) (by rfl)).2 stEmpty
      (by decide) (by rfl)⟩

/-- Claim C2: with no cache entry and a checksum present, fetch hashes the
downloaded bytes with the named algorithm before anything is extracted; a
digest that is not string-equal to the expected component fails with the
integrity RuntimeError leaving the state untouched and sources/id absent,
while an equal digest lets fetch proceed and succeed, the hash check
happening strictly before the extraction in the trace. -/
theorem claim_C2 (env : Env) (r : Recipe) (st : SysState)
    (c algo expected : String) (rest : List String)
    (hnot : alookup r.id st.sources = none)
    (hcs : r.source.checksum = some c)
    (hsp : splitColon c = algo :: expected :: rest)
    (hm : r.source.method = "tarball")
    (hne : (env.download r.source.url).entries ≠ []) :
    (expected ≠ env.hashHex algo (env.download r.source.url).bytes →
      (fetchRecipe env r st).err
          = some (Err.runtimeError "Could not verify data integrity: invalid checksum") ∧
        (fetchRecipe env r st).st = st ∧
        alookup r.id (fetchRecipe env r st).st.sources = none ∧
        (∀ u, Event.extract u ∉ (fetchRecipe env r st).tr)) ∧
    (expected = env.hashHex algo (env.download r.source.url).bytes →
      (fetchRecipe env r st).err = none ∧
        (∃ tl, (fetchRecipe env r st).tr
          = Event.download r.source.url
            :: Event.hashCheck algo expected
                (env.hashHex algo (env.download r.source.url).bytes)
            :: Event.extract r.source.url :: tl)) := by
  constructor
  · intro hneq
    rw [fetchRecipe_verify_fail env r st c algo expected rest hnot hm hcs hsp hneq]
    refine ⟨rfl, rfl, hnot, ?_⟩
    intro u
    simp
  · intro heq
    obtain ⟨node, hnode⟩ := Option.isSome_iff_exists.mp
      (alookup_moveEntries_of_ne_nil (env.download r.source.url).entries hne
        st.sources r.id)
    rw [fetchRecipe_verify_ok env r st c algo expected rest hnot hm hcs hsp heq,
      fetchExtract_ok r (env.download r.source.url) st node hnode]
    exact ⟨rfl, ⟨_, rfl⟩⟩

/-- Recipe whose checksum matches the digest envC computes. -/
def shaRecipe : Recipe :=
  ⟨"hello", ⟨"https://example.org/hello.tar.gz", "tarball", some "sha256:aa"⟩,
    ⟨["make"], ["make install"]⟩⟩

/-- Recipe whose checksum does not match the digest envC computes. -/
def badRecipe : Recipe :=
  ⟨"hello", ⟨"https://example.org/hello.tar.gz", "tarball", some "sha256:bb"⟩,
    ⟨["make"], ["make install"]⟩⟩

/-- Recipe whose checksum has no ":" separator. -/
def nocolonRecipe : Recipe :=
  ⟨"hello", ⟨"https://example.org/hello.tar.gz", "tarball", some "deadbeef"⟩,
    ⟨["make"], ["make install"]⟩⟩

theorem claim_C2_witness :
    ((fetchRecipe envC badRecipe stEmpty).err
        = some (Err.runtimeError "Could not verify data integrity: invalid checksum") ∧
      alookup "hello" (fetchRecipe envC badRecipe stEmpty).st.sources = none) ∧
    (fetchRecipe envC shaRecipe stEmpty).err = none := by
  have hne : (envC.download badRecipe.source.url).entries ≠ [] := by
    rw [show (envC.download badRecipe.source.url).entries = [("hello-2.1", nodeHello)]
      from rfl]
    exact List.cons_ne_nil _ _
  have hbad := (claim_C2 envC badRecipe stEmpty "sha256:bb" "sha256" "bb" []
    (by rfl) (by rfl) (by decide) (by rfl) hne).1 (by decide)
  have hne2 : (envC.download shaRecipe.source.url).entries ≠ [] := by
    rw [show (envC.download shaRecipe.source.url).entries = [("hello-2.1", nodeHello)]
      from rfl]
    exact List.cons_ne_nil _ _
  have hok := (claim_C2 envC shaRecipe stEmpty "sha256:aa" "sha256" "aa" []
    (by rfl) (by rfl) (by decide) (by rfl) hne2).2 (by decide)
  exact ⟨⟨hbad.1, hbad.2.2.1⟩, hok.1⟩

/-- Claim C6 is false on the code: save-patch runs the diff with check
disabled and writes its output unconditionally, so with no hello-workdir in
the current directory it still succeeds and produces hello.patch instead of
failing. -/
theorem claim_C6_counterexample :
    alookup ("hello" ++ "-workdir") stEmpty.workdirs = none ∧
    (cmdSavePatch envC "hello" stEmpty).err = none ∧
    alookup "hello" (cmdSavePatch envC "hello" stEmpty).st.patches = some "" :=
  ⟨rfl, rfl, rfl⟩

/-- Claim C6 (amended): make-patch does fail fatally when the -clean snapshot
does not exist; save-patch, however, performs no workdir check at all: it
always succeeds and writes the diff output to recipe.patch, whether or not
the workdir exists. -/
theorem claim_C6_amended (env : Env) (recipe : String) (st : SysState) :
    (alookup (recipe ++ "-clean") st.sources = none →
      cmdMakePatch recipe st
        = ⟨st, [], some (Err.runtimeError "Recipe sources were not fetched yet")⟩) ∧
    ((cmdSavePatch env recipe st).err = none ∧
      alookup recipe (cmdSavePatch env recipe st).st.patches
        = some (env.gitDiff (alookup (recipe ++ "-clean") st.sources)
            (alookup (recipe ++ "-workdir") st.workdirs))) := by
  constructor
  · intro h; simp [cmdMakePatch, h]
  · by_cases ha : env.askRemove = true
    · simp [cmdSavePatch, ha, alookup_aset_self]
    · simp only [Bool.not_eq_true] at ha
      simp [cmdSavePatch, ha, alookup_aset_self]

theorem claim_C6_amended_witness :
    cmdMakePatch "hello" stEmpty
        = ⟨stEmpty, [], some (Err.runtimeError "Recipe sources were not fetched yet")⟩ ∧
    (cmdSavePatch envC "hello" stEmpty).err = none :=
  ⟨(claim_C6_amended envC "hello" stEmpty).1 (by rfl),
    (claim_C6_amended envC "hello" stEmpty).2.1⟩

/-- Claim C7: an archive with a single top-level directory is extracted into
a temporary directory whose every top-level entry is then moved into
sources/id, so the inner files land directly under sources/id with no extra
nesting; the temporary directory is removed right after the moves. -/
theorem claim_C7 (env : Env) (r : Recipe) (st : SysState) (d : String)
    (inner : List (String × Node))
    (hnot : alookup r.id st.sources = none)
    (hm : r.source.method = "tarball")
    (hent : (env.download r.source.url).entries = [(d, Node.dir inner)])
    (hver : r.source.checksum = none ∨
      ∃ c algo expected rest, r.source.checksum = some c ∧
        splitColon c = algo :: expected :: rest ∧
        expected = env.hashHex algo (env.download r.source.url).bytes) :
    (fetchRecipe env r st).err = none ∧
    alookup r.id (fetchRecipe env r st).st.sources = some (Node.dir inner) ∧
    (∃ pre, (fetchRecipe env r st).tr
      = pre ++ [Event.extract r.source.url, Event.move d r.id, Event.rmrfTmp,
          Event.cpTree r.id (r.id ++ "-clean")]) := by
  have hmv : moveEntries st.sources r.id (env.download r.source.url).entries
      = aset r.id (Node.dir inner) st.sources := by
    rw [hent]
    simp [moveEntries, mvEntry, hnot]
  have hnode : alookup r.id (moveEntries st.sources r.id (env.download r.source.url).entries)
      = some (Node.dir inner) := by
    rw [hmv, alookup_aset_self]
  have hfe := fetchExtract_ok r (env.download r.source.url) st (Node.dir inner) hnode
  rcases hver with hcs | ⟨c, algo, expected, rest, hcs, hsp, heq⟩
  · rw [fetchRecipe_no_checksum env r st hnot hm hcs, hfe]
    refine ⟨rfl, ?_, ?_⟩
    · dsimp only
      rw [alookup_aset_ne r.id (r.id ++ "-clean") (ne_append_clean r.id), hnode]
    · refine ⟨[Event.warn (r.id ++
          " has no source checksum specified... data integrity will not be verified"),
        Event.download r.source.url], ?_⟩
      dsimp only
      rw [hent]
      simp
  · rw [fetchRecipe_verify_ok env r st c algo expected rest hnot hm hcs hsp heq, hfe]
    refine ⟨rfl, ?_, ?_⟩
    · dsimp only
      rw [alookup_aset_ne r.id (r.id ++ "-clean") (ne_append_clean r.id), hnode]
    · refine ⟨[Event.download r.source.url,
        Event.hashCheck algo expected
          (env.hashHex algo (env.download r.source.url).bytes)], ?_⟩
      dsimp only
      rw [hent]
      simp

theorem claim_C7_witness :
    (fetchRecipe envC helloRecipe stEmpty).err = none ∧
    alookup "hello" (fetchRecipe envC helloRecipe stEmpty).st.sources
      = some (Node.dir [("main.c", Node.file "int main")]) ∧
    (∃ pre, (fetchRecipe envC helloRecipe stEmpty).tr
      = pre ++ [Event.extract "https://example.org/hello.tar.gz",
          Event.move "hello-2.1" "hello", Event.rmrfTmp,
          Event.cpTree "hello" ("hello" ++ "-clean")]) :=
  claim_C7 envC helloRecipe stEmpty "hello-2.1" [("main.c", Node.file "int main")]
    (by rfl) (by rfl) (by rfl) (Or.inl (by rfl))

/-- Claim C9: a checksum with no ":" separator makes fetch crash with an
IndexError (not an integrity RuntimeError) when component 1 is accessed; and
only the first two ":"-components take part in verification: two checksums
agreeing on components 0 and 1 give identical fetch behaviour, any further
components being ignored. -/
theorem claim_C9 (env : Env) (r : Recipe) (st : SysState) (c : String)
    (hnot : alookup r.id st.sources = none)
    (hm : r.source.method = "tarball")
    (hcs : r.source.checksum = some c) :
    ((splitColon c).length ≤ 1 →
      fetchRecipe env r st = ⟨st, [Event.download r.source.url], some Err.indexError⟩) ∧
    (∀ algo expected rest rest2 c2,
      splitColon c = algo :: expected :: rest →
      splitColon c2 = algo :: expected :: rest2 →
      fetchRecipe env ⟨r.id, ⟨r.source.url, r.source.method, some c2⟩, r.steps⟩ st
        = fetchRecipe env r st) := by
  constructor
  · intro hlen; exact fetchRecipe_no_colon env r st c hnot hm hcs hlen
  · intro algo expected rest rest2 c2 hsp hsp2
    by_cases heq : expected = env.hashHex algo (env.download r.source.url).bytes
    · rw [fetchRecipe_verify_ok env r st c algo expected rest hnot hm hcs hsp heq,
        fetchRecipe_verify_ok env
          ⟨r.id, ⟨r.source.url, r.source.method, some c2⟩, r.steps⟩ st c2 algo expected
          rest2 hnot hm rfl hsp2 heq]
      rfl
    · rw [fetchRecipe_verify_fail env r st c algo expected rest hnot hm hcs hsp heq,
        fetchRecipe_verify_fail env
          ⟨r.id, ⟨r.source.url, r.source.method, some c2⟩, r.steps⟩ st c2 algo expected
          rest2 hnot hm rfl hsp2 heq]

theorem claim_C9_witness :
    fetchRecipe envC nocolonRecipe stEmpty
        = ⟨stEmpty, [Event.download "https://example.org/hello.tar.gz"],
          some Err.indexError⟩ ∧
    fetchRecipe envC ⟨"hello", ⟨"https://example.org/hello.tar.gz", "tarball",
        some "sha256:aa:junk"⟩, ⟨["make"], ["make install"]⟩⟩ stEmpty
      = fetchRecipe envC shaRecipe stEmpty :=
  ⟨(claim_C9 envC nocolonRecipe stEmpty "deadbeef" (by rfl) (by rfl) (by rfl)).1
      (by decide),
    (claim_C9 envC shaRecipe stEmpty "sha256:aa" (by rfl) (by rfl) (by rfl)).2
      "sha256" "aa" [] ["junk"] "sha256:aa:junk" (by decide) (by decide)⟩

theorem execInContainer_st (env : Env) (n c : String) (st : SysState) :
    (execInContainer env n c st).st = st := by
  unfold execInContainer
  split_ifs <;> rfl

theorem mem_execInContainer_tr (env : Env) (n c : String) (st : SysState) (e : Event)
    (h : e ∈ (execInContainer env n c st).tr) :
    e = Event.cexec n c ∨ e = Event.restart n := by
  unfold execInContainer at h
  split_ifs at h <;> simp at h <;> tauto

theorem setupFold_st (env : Env) (n : String) (l : List String) (init : Res) :
    (List.foldl (fun r c => r.andThen (execInContainer env n c)) init l).st = init.st := by
  induction l generalizing init with
  | nil => rfl
  | cons c rest ih =>
    rw [List.foldl_cons, ih]
    cases he : init.err with
    | some x => simp [Res.andThen, he]
    | none => simp [Res.andThen, he, execInContainer_st]

theorem setupFold_tr (env : Env) (n : String) (l : List String) (init : Res) (e : Event)
    (h : e ∈ (List.foldl (fun r c => r.andThen (execInContainer env n c)) init l).tr) :
    e ∈ init.tr ∨ ∃ c, e = Event.cexec n c ∨ e = Event.restart n := by
  induction l generalizing init with
  | nil => left; simpa using h
  | cons c rest ih =>
    rw [List.foldl_cons] at h
    rcases ih (init.andThen (execInContainer env n c)) h with h1 | h1
    · cases he : init.err with
      | some x => simp [Res.andThen, he] at h1; left; exact h1
      | none =>
        simp only [Res.andThen, he] at h1
        rcases List.mem_append.mp h1 with h2 | h2
        · left; exact h2
        · right; exact ⟨c, mem_execInContainer_tr env n c init.st e h2⟩
    · right; exact h1

theorem setupFold_tr_initSeg (env : Env) (n : String) (l : List String) (init : Res) :
    ∃ suf, (List.foldl (fun r c => r.andThen (execInContainer env n c)) init l).tr
      = init.tr ++ suf := by
  induction l generalizing init with
  | nil => exact ⟨[], by simp⟩
  | cons c rest ih =>
    rw [List.foldl_cons]
    obtain ⟨suf, hs⟩ := ih (init.andThen (execInContainer env n c))
    cases he : init.err with
    | some x =>
      refine ⟨suf, ?_⟩
      rw [hs]
      simp [Res.andThen, he]
    | none =>
      refine ⟨(execInContainer env n c init.st).tr ++ suf, ?_⟩
      rw [hs]
      simp [Res.andThen, he]

theorem createContainer_st (env : Env) (name image : String) (st : SysState) :
    (createContainer env name image st).st
      = { st with containers := st.containers ++ [name] } := by
  cases hi : IMAGES image with
  | none => simp [createContainer, hi]
  | some img => simp [createContainer, hi, setupFold_st]

theorem mem_createContainer_tr (env : Env) (name image : String) (st : SysState)
    (e : Event) (h : e ∈ (createContainer env name image st).tr) :
    e = Event.containerRun name image
      ∨ ∃ c, e = Event.cexec name c ∨ e = Event.restart name := by
  cases hi : IMAGES image with
  | none => simp [createContainer, hi] at h; left; exact h
  | some img =>
    simp only [createContainer, hi] at h
    rcases setupFold_tr env name img.setup _ e h with h1 | h1
    · left; simpa using h1
    · right; exact h1

theorem containerRun_mem_createContainer (env : Env) (name image : String)
    (st : SysState) :
    Event.containerRun name image ∈ (createContainer env name image st).tr := by
  cases hi : IMAGES image with
  | none => simp [createContainer, hi]
  | some img =>
    simp only [createContainer, hi]
    obtain ⟨suf, hs⟩ := setupFold_tr_initSeg env name img.setup
      ⟨{ st with containers := st.containers ++ [name] },
        [Event.containerRun name image], none⟩
    rw [hs]
    simp

theorem tryCreateContainer_exists (env : Env) (name image : String) (st : SysState)
    (h : containerExists st name = true) :
    tryCreateContainer env name image st = ⟨st, [Event.queryContainer name], none⟩ := by
  simp [tryCreateContainer, h]

theorem tryCreateContainer_machines (env : Env) (name image : String) (st : SysState) :
    (tryCreateContainer env name image st).st.machines = st.machines := by
  by_cases h : containerExists st name = true
  · simp [tryCreateContainer, h]
  · simp only [Bool.not_eq_true] at h
    simp [tryCreateContainer, h, createContainer_st]

theorem mem_tryCreateContainer_tr (env : Env) (name image : String) (st : SysState)
    (e : Event) (h : e ∈ (tryCreateContainer env name image st).tr) :
    e = Event.queryContainer name ∨ e = Event.containerRun name image
      ∨ ∃ c, e = Event.cexec name c ∨ e = Event.restart name := by
  by_cases hc : containerExists st name = true
  · rw [tryCreateContainer_exists env name image st hc] at h
    simp at h
    left; exact h
  · simp only [Bool.not_eq_true] at hc
    simp only [tryCreateContainer, hc, Bool.false_eq_true, if_false] at h
    rcases List.mem_cons.mp h with h1 | h1
    · left; exact h1
    · right; exact mem_createContainer_tr env name image st e h1

theorem tryCreateMachine_err (st : SysState) : (tryCreateMachine st).err = none := by
  unfold tryCreateMachine
  split_ifs <;> rfl

theorem tryCreateMachine_containers (st : SysState) :
    (tryCreateMachine st).st.containers = st.containers := by
  unfold tryCreateMachine
  split_ifs <;> rfl

theorem mem_tryCreateMachine_tr (st : SysState) (e : Event)
    (h : e ∈ (tryCreateMachine st).tr) :
    e = Event.queryMachine defaultMachineName ∨ e = Event.machineStop
      ∨ e = Event.machineInit defaultMachineName
      ∨ e = Event.machineStart defaultMachineName
      ∨ e = Event.connectionDefault defaultMachineName := by
  unfold tryCreateMachine at h
  split_ifs at h <;> simp at h <;> tauto

/-- setupContainer on a linux host, explicitly. -/
theorem setupContainer_linux (env : Env) (image : String) (st : SysState)
    (hu : env.unameSysname = "linux") :
    setupContainer env image st
      = tryCreateContainer env defaultContainerName image st := by
  simp only [setupContainer, hu, ne_eq, not_true_eq_false, if_false, ite_false]
  rfl

/-- setupContainer on a non-linux host, explicitly. -/
theorem setupContainer_other (env : Env) (image : String) (st : SysState)
    (hu : env.unameSysname ≠ "linux") :
    setupContainer env image st
      = ⟨(tryCreateContainer env defaultContainerName image (tryCreateMachine st).st).st,
        (tryCreateMachine st).tr
          ++ (tryCreateContainer env defaultContainerName image (tryCreateMachine st).st).tr,
        (tryCreateContainer env defaultContainerName image (tryCreateMachine st).st).err⟩ := by
  simp only [setupContainer, hu, ne_eq, not_false_eq_true, if_true, ite_true]
  simp [Res.andThen, tryCreateMachine_err]

/-- Claim C8: VM provisioning is attempted only on a non-linux host (created
only when the name query says absent), container provisioning is attempted on
every host whenever the name query says the container is absent, and both are
no-ops when their existence query succeeds. -/
theorem claim_C8 (env : Env) (image : String) (st : SysState) :
    (env.unameSysname = "linux" →
      (setupContainer env image st).st.machines = st.machines ∧
      ∀ n, Event.machineInit n ∉ (setupContainer env image st).tr) ∧
    (env.unameSysname ≠ "linux" → machineExists st defaultMachineName = false →
      Event.machineInit defaultMachineName ∈ (setupContainer env image st).tr ∧
      (setupContainer env image st).st.machines = st.machines ++ [defaultMachineName]) ∧
    (env.unameSysname ≠ "linux" → machineExists st defaultMachineName = true →
      (setupContainer env image st).st.machines = st.machines ∧
      ∀ n, Event.machineInit n ∉ (setupContainer env image st).tr) ∧
    (containerExists st defaultContainerName = true →
      (setupContainer env image st).st.containers = st.containers ∧
      ∀ n i, Event.containerRun n i ∉ (setupContainer env image st).tr) ∧
    (containerExists st defaultContainerName = false →
      Event.containerRun defaultContainerName image ∈ (setupContainer env image st).tr) := by
  refine ⟨?_, ?_, ?_, ?_, ?_⟩
  · intro hu
    rw [setupContainer_linux env image st hu]
    refine ⟨tryCreateContainer_machines env defaultContainerName image st, ?_⟩
    intro n hmem
    rcases mem_tryCreateContainer_tr env defaultContainerName image st _ hmem with
      h | h | ⟨c, h | h⟩ <;> exact Event.noConfusion h
  · intro hu habs
    rw [setupContainer_other env image st hu]
    have hm : tryCreateMachine st
        = ⟨{ st with machines := st.machines ++ [defaultMachineName] },
          [Event.queryMachine defaultMachineName, Event.machineStop,
            Event.machineInit defaultMachineName,
            Event.connectionDefault defaultMachineName], none⟩ := by
      simp [tryCreateMachine, habs]
    rw [hm]
    constructor
    · dsimp only
      simp
    · dsimp only
      rw [tryCreateContainer_machines]
  · intro hu hpres
    rw [setupContainer_other env image st hu]
    have hm : tryCreateMachine st
        = ⟨st, [Event.queryMachine defaultMachineName,
            Event.machineStart defaultMachineName,
            Event.connectionDefault defaultMachineName], none⟩ := by
      simp [tryCreateMachine, hpres]
    rw [hm]
    constructor
    · dsimp only
      rw [tryCreateContainer_machines]
    · intro n hmem
      dsimp only at hmem
      rcases List.mem_append.mp hmem with h1 | h1
      · simp at h1
      · rcases mem_tryCreateContainer_tr env defaultContainerName image st _ h1 with
          h | h | ⟨c, h | h⟩ <;> exact Event.noConfusion h
  · intro hc
    by_cases hu : env.unameSysname = "linux"
    · rw [setupContainer_linux env image st hu,
        tryCreateContainer_exists env defaultContainerName image st hc]
      refine ⟨rfl, ?_⟩
      intro n i hmem
      simp at hmem
    · rw [setupContainer_other env image st hu]
      have hc2 : containerExists (tryCreateMachine st).st defaultContainerName = true := by
        unfold containerExists at hc ⊢
        rw [tryCreateMachine_containers]
        exact hc
      rw [tryCreateContainer_exists env defaultContainerName image _ hc2]
      constructor
      · dsimp only
        rw [tryCreateMachine_containers]
      · intro n i hmem
        dsimp only at hmem
        rcases List.mem_append.mp hmem with h1 | h1
        · rcases mem_tryCreateMachine_tr st _ h1 with h | h | h | h | h <;>
            exact Event.noConfusion h
        · simp at h1
  · intro hc
    by_cases hu : env.unameSysname = "linux"
    · rw [setupContainer_linux env image st hu]
      simp only [tryCreateContainer, hc, Bool.false_eq_true, if_false]
      exact List.mem_cons_of_mem _ (containerRun_mem_createContainer env _ image st)
    · rw [setupContainer_other env image st hu]
      have hc2 : containerExists (tryCreateMachine st).st defaultContainerName = false := by
        unfold containerExists at hc ⊢
        rw [tryCreateMachine_containers]
        exact hc
      dsimp only
      refine List.mem_append.mpr (Or.inr ?_)
      simp only [tryCreateContainer, hc2, Bool.false_eq_true, if_false]
      exact List.mem_cons_of_mem _ (containerRun_mem_createContainer env _ image _)

theorem claim_C8_witness :
    (setupContainer envC "debian" stEmpty).st.machines = stEmpty.machines ∧
    Event.containerRun defaultContainerName "debian"
      ∈ (setupContainer envC "debian" stEmpty).tr :=
  ⟨((claim_C8 envC "debian" stEmpty).1 (by rfl)).1,
    (claim_C8 envC "debian" stEmpty).2.2.2.2 (by decide)⟩

end Bstrap
